import Mathlib

set_option maxRecDepth 40000

/-!
Shallow embedding of the filtering and traversal engine of repo2txt
(src/repo2txt/repo2txt.py): the filter predicate should_ignore, the
gitignore pattern loader, the tree renderer write_tree, the content
dumper write_file_contents_in_order / write_file_content, and the
main driver.

Paths are plain strings with "/" as separator, as in the POSIX case of
the Python code.  String primitives (basename, splitext, startswith,
lower, strip, join) are modelled by structurally recursive functions on
the character list of the string so that every definition evaluates
inside the kernel.  os.path.abspath is modelled as prefixing the
current working directory to relative paths; inputs are assumed not to
contain "." or ".." components (the program never constructs such
paths during traversal).  The filesystem and process environment are
an explicit record of query functions, mirroring the os.path.isdir,
os.path.isfile, os.listdir and open calls of the source.
-/

/-- Lexicographic comparison of character lists by code point, the order
Python uses to sort strings.  lexLe a b is true iff a is less than or
equal to b. -/
def lexLe : List Char → List Char → Bool
  | [], _ => true
  | _ :: _, [] => false
  | a :: as, b :: bs =>
    if a < b then true
    else if b < a then false
    else lexLe as bs

/-- Order on strings used by list.sort and sorted in the source:
lexicographic by code point. -/
def strLeP (a b : String) : Prop := lexLe a.data b.data = true

instance : DecidableRel strLeP := fun _ _ => instDecidableEqBool _ _

/-- Sorting a list of strings, modelling Python's list.sort / sorted
(a stable sort under lexicographic code-point order). -/
def sortStr (l : List String) : List String := List.insertionSort strLeP l

/-- Splitting a character list at every occurrence of a separator
character; models str.split for a one-character separator. -/
def splitOnChar (sep : Char) : List Char → List (List Char)
  | [] => [[]]
  | c :: cs =>
    let rest := splitOnChar sep cs
    if c = sep then [] :: rest
    else match rest with
      | [] => [[c]]
      | r :: rs => (c :: r) :: rs

/-- Splitting a string on "/"; models s.split("/") and is the basis of
the path-segment view of a path. -/
def splitSlash (s : String) : List String := (splitOnChar '/' s.data).map String.mk

/-- Models str.startswith for a string argument: prefix test on the
underlying character lists. -/
def strStartsWith (s p : String) : Bool := p.data.isPrefixOf s.data

/-- Models str.endswith: suffix test on the underlying character
lists. -/
def strEndsWith (s p : String) : Bool := p.data.isSuffixOf s.data

/-- Models str.lower (ASCII case folding, which covers the extension
strings the program compares). -/
def lowerStr (s : String) : String := String.mk (s.data.map Char.toLower)

/-- Models os.path.basename: everything after the last "/" (the whole
string when it has no "/"). -/
def basename (p : String) : String := (splitSlash p).getLastD ""

/-- Models os.path.join for two components: an absolute second
component wins; otherwise the parts are joined with a single "/". -/
def pathJoin (a b : String) : String :=
  if strStartsWith b "/" then b
  else if a == "" || strEndsWith a "/" then a ++ b
  else a ++ "/" ++ b

/-- Models os.path.abspath: a path starting with "/" is already
absolute, otherwise it is joined to the current working directory.
Normalization of "." and ".." components is not modelled; the program
only builds paths by joining listing names to the root. -/
def abspath (cwd p : String) : String :=
  if strStartsWith p "/" then p else pathJoin cwd p

/-- Length of the longest common prefix of two lists of path
segments; helper for relpath. -/
def commonPrefixLen : List String → List String → Nat
  | a :: as, b :: bs => if a == b then commonPrefixLen as bs + 1 else 0
  | _, _ => 0

/-- Joining path segments with "/"; models "/".join(parts). -/
def joinSlash : List String → String
  | [] => ""
  | [p] => p
  | p :: ps => p ++ "/" ++ joinSlash ps

/-- Models os.path.relpath(p, start): make both paths absolute, drop
their common leading segments, then prepend one ".." per remaining
segment of start. -/
def relpath (cwd p start : String) : String :=
  let ps := splitSlash (abspath cwd p)
  let ss := splitSlash (abspath cwd start)
  let k := commonPrefixLen ps ss
  let parts := List.replicate (ss.length - k) ".." ++ ps.drop k
  if parts.isEmpty then "." else joinSlash parts

/-- Models os.path.splitext(name)[1] for a basename: the suffix from
the last "." on, except that a name whose characters before that dot
are all dots (such as ".bashrc" or "...") has no extension. -/
def splitextExt (b : String) : String :=
  let rev := b.data.reverse
  let afterRev := rev.takeWhile (fun c => c ≠ '.')
  match rev.dropWhile (fun c => c ≠ '.') with
  | [] => ""
  | _ :: beforeRev =>
    if beforeRev.any (fun c => c ≠ '.') then String.mk ('.' :: afterRev.reverse) else ""

/-- Indentation of two spaces per depth level; models "  " * depth. -/
def indentStr : Nat → String
  | 0 => ""
  | n + 1 => "  " ++ indentStr n

/-- Process environment of one run: the current working directory, the
settings-extension list loaded from config.json, and the filesystem
query functions used by the source (os.path.isdir, os.path.isfile,
os.listdir, and opening a file in text mode with errors="ignore",
which either yields the decoded line chunks or raises an error whose
description is the string payload). -/
structure Env where
  cwd : String
  settings_extensions : List String
  isdir : String → Bool
  isfile : String → Bool
  listdir : String → List String
  readf : String → Except String (List String)

/-- Parsed command-line arguments consumed by the core (after main's
"none" normalization); mirrors the argparse namespace fields the
filter and traversals read. -/
structure Args where
  repo_path : String
  output_file : String
  ignore_files : List String
  ignore_types : List String
  exclude_dir : List String
  ignore_settings : Bool
  include_dir : Option String
  use_gitignore : Bool

/-- Embedding of should_ignore(item, args, output_file_path,
gitignore_patterns): the early-return chain of the source, in source
order.  Truthiness of args.exclude_dir (an empty list is falsy) and of
args.include_dir (None and the empty string are falsy) is modelled
explicitly. -/
def should_ignore (V : Env) (item : String) (args : Args)
    (output_file_path : String) (gitignore_patterns : List String) : Bool :=
  let item_name := basename item
  let file_ext := lowerStr (splitextExt item_name)
  if abspath V.cwd item == abspath V.cwd output_file_path then true
  else if V.isdir item && (!args.exclude_dir.isEmpty && args.exclude_dir.contains item_name) then true
  else if args.include_dir.any (fun d =>
      d != "" && !strStartsWith (abspath V.cwd item) (abspath V.cwd d)) then true
  else if V.isfile item &&
      (args.ignore_files.contains item_name || args.ignore_types.contains file_ext) then true
  else if args.ignore_settings && V.settings_extensions.contains file_ext then true
  else if args.use_gitignore then
    gitignore_patterns.any (fun pattern =>
      (splitSlash pattern).any (fun c => strStartsWith (relpath V.cwd item args.repo_path) c))
  else false

/-- Models str.strip() restricted to the whitespace characters that
occur in pattern files. -/
def stripStr (s : String) : String :=
  String.mk (((s.data.dropWhile Char.isWhitespace).reverse.dropWhile Char.isWhitespace).reverse)

/-- Embedding of load_gitignore_patterns(repo_path): read the
.gitignore at the root if present (a failing read models a missing
file), strip each line, and keep the non-empty lines that do not start
with "#". -/
def load_gitignore_patterns (V : Env) (repo_path : String) : List String :=
  match V.readf (pathJoin repo_path ".gitignore") with
  | Except.error _ => []
  | Except.ok lines =>
    (lines.map stripStr).filter (fun s => s != "" && !strStartsWith s "#")

/-- The six ignore rules of should_ignore, as a list in source order:
output-file guard, excluded directory name, include-directory
restriction, ignored file name or extension, settings extension,
gitignore pattern.  Each entry is the boolean condition of the
corresponding early return. -/
def ignore_rules (V : Env) (item : String) (args : Args)
    (output_file_path : String) (gitignore_patterns : List String) : List Bool :=
  let item_name := basename item
  let file_ext := lowerStr (splitextExt item_name)
  [abspath V.cwd item == abspath V.cwd output_file_path,
   V.isdir item && (!args.exclude_dir.isEmpty && args.exclude_dir.contains item_name),
   args.include_dir.any (fun d =>
     d != "" && !strStartsWith (abspath V.cwd item) (abspath V.cwd d)),
   V.isfile item &&
     (args.ignore_files.contains item_name || args.ignore_types.contains file_ext),
   args.ignore_settings && V.settings_extensions.contains file_ext,
   args.use_gitignore &&
     gitignore_patterns.any (fun pattern =>
       (splitSlash pattern).any (fun c => strStartsWith (relpath V.cwd item args.repo_path) c))]

/-- Evaluates a list of rule outcomes in order, returning ignore at the
first rule that matches and include when none does; the procedure the
spec describes for the filter. -/
def evalFirstMatch : List Bool → Bool
  | [] => false
  | r :: rs => if r then true else evalFirstMatch rs

/-- One emitted line of the tree renderer, together with the values of
the loop variables of write_tree at the moment the line was written:
the directory being listed, its full sorted pre-filter item list, the
index of this item in that list and the list's length, the item name
and its joined path, whether os.path.isdir held, the indentation
prefix, and the full text written. -/
structure TVisit where
  dir : String
  siblings : List String
  index : Nat
  total : Nat
  name : String
  path : String
  isDir : Bool
  pfx : String
  line : String
  deriving DecidableEq

/-- The body of the loop of write_tree for one enumerated item iv of
the full sorted item list: skip the item when should_ignore holds,
otherwise emit one line whose branch glyph is chosen by comparing the
index with the length of the full pre-filter list, and recurse into
directories (through the recursion argument) with the prefix
extended. -/
def write_tree_child (V : Env) (args : Args) (gitignore_patterns : List String)
    (recurse : String → String → List TVisit)
    (dir_path pfx : String) (items : List String) (iv : Nat × String) : List TVisit :=
  let num_items := items.length
  let index := iv.1
  let item := iv.2
  let item_path := pathJoin dir_path item
  if should_ignore V item_path args args.output_file gitignore_patterns then []
  else
    let is_last_item := index == num_items - 1
    let glyph := if is_last_item then "└── " else "├── "
    let childPfx := if is_last_item then "    " else "│   "
    { dir := dir_path, siblings := items, index := index, total := num_items,
      name := item, path := item_path, isDir := V.isdir item_path, pfx := pfx,
      line := pfx ++ glyph ++ basename item ++ "\n" } ::
    (if V.isdir item_path then recurse item_path (pfx ++ childPfx) else [])

/-- Embedding of the loop of write_tree(dir_path, ...): list the
directory, sort, and handle each enumerated item with
write_tree_child.  The result is the sequence of emitted lines
annotated with the loop state; fuel bounds the recursion depth and is
never exhausted on a filesystem of smaller depth. -/
def write_tree_visits (V : Env) (args : Args) (gitignore_patterns : List String) :
    Nat → String → String → List TVisit
  | 0, _, _ => []
  | fuel + 1, dir_path, pfx =>
    let items := sortStr (V.listdir dir_path)
    items.enum.flatMap
      (write_tree_child V args gitignore_patterns
        (write_tree_visits V args gitignore_patterns fuel) dir_path pfx items)

/-- The text chunks write_tree writes: the root directory line (written
once, before the loop, when is_root is true) followed by the emitted
lines of the recursion. -/
def write_tree_chunks (V : Env) (args : Args) (gitignore_patterns : List String)
    (fuel : Nat) (dir_path pfx : String) (is_root : Bool) : List String :=
  (if is_root then [basename dir_path ++ "/\n"] else []) ++
    (write_tree_visits V args gitignore_patterns fuel dir_path pfx).map TVisit.line

/-- Projection of a tree visit to the path of a listed file: a visit
of a non-directory entry yields its path, a directory visit yields
nothing. -/
def treeFileProj (v : TVisit) : Option String :=
  if v.isDir then none else some v.path

/-- The paths of the non-directory entries listed in the tree section:
every visit that is not recursed into as a directory. -/
def treeListedFiles (V : Env) (args : Args) (gitignore_patterns : List String)
    (fuel : Nat) (dir_path pfx : String) : List String :=
  (write_tree_visits V args gitignore_patterns fuel dir_path pfx).filterMap treeFileProj

/-- Embedding of write_file_content(file_path, output_file, depth):
write each line of the file prefixed by the indentation, and on a read
error write the error description prefixed by the same indentation. -/
def write_file_content (V : Env) (file_path : String) (depth : Nat) : List String :=
  let indentation := indentStr depth
  match V.readf file_path with
  | Except.ok lines => lines.map (fun line => indentation ++ line)
  | Except.error e => [indentation ++ "Error reading file: " ++ e ++ "\n"]

/-- The filtered, sorted item list the content dumper iterates over:
sorted(item for item in os.listdir(dir_path) if not should_ignore(...)). -/
def dump_items (V : Env) (args : Args) (gitignore_patterns : List String)
    (dir_path : String) : List String :=
  sortStr ((V.listdir dir_path).filter (fun item =>
    !should_ignore V (pathJoin dir_path item) args args.output_file gitignore_patterns))

/-- The body of the loop of write_file_contents_in_order for one item:
recurse into directories (through the recursion argument, applied to
the remaining fuel), and for files write the begin marker, the
indented content, and the end marker.  Returns the written chunks
paired with the dumped file paths. -/
def write_one_item (V : Env) (args : Args)
    (recurse : String → Nat → List String × List String)
    (dir_path : String) (depth : Nat) (item : String) : List String × List String :=
  let item_path := pathJoin dir_path item
  let relative_path := relpath V.cwd item_path args.repo_path
  if V.isdir item_path then recurse item_path (depth + 1)
  else if V.isfile item_path then
    ((indentStr depth ++ "[File Begins] " ++ relative_path ++ "\n") ::
       write_file_content V item_path depth ++
       ["\n" ++ indentStr depth ++ "[File Ends] " ++ relative_path ++ "\n\n"],
     [item_path])
  else ([], [])

/-- Embedding of write_file_contents_in_order(dir_path, output_file,
args, gitignore_patterns, depth): iterate over the filtered sorted
items, handling each with write_one_item; the first component is the
written chunks, the second the paths of the dumped files. -/
def write_file_contents_in_order (V : Env) (args : Args) (gitignore_patterns : List String) :
    Nat → String → Nat → List String × List String
  | 0, _, _ => ([], [])
  | fuel + 1, dir_path, depth =>
    let parts := (dump_items V args gitignore_patterns dir_path).map
      (write_one_item V args
        (write_file_contents_in_order V args gitignore_patterns fuel) dir_path depth)
    (parts.flatMap Prod.fst, parts.flatMap Prod.snd)

/-- The fixed explanatory paragraph main writes after the title. -/
def headerParagraph : String :=
  "This document provides a comprehensive overview of the repository's structure and contents.\n" ++
  "The first section, titled 'Directory/File Tree', displays the repository's hierarchy in a tree format.\n" ++
  "In this section, directories and files are listed using tree branches to indicate their structure and relationships.\n" ++
  "Following the tree representation, the 'File Content' section details the contents of each file in the repository.\n" ++
  "Each file's content is introduced with a '[File Begins]' marker followed by the file's relative path,\n" ++
  "and the content is displayed verbatim. The end of each file's content is marked with a '[File Ends]' marker.\n" ++
  "This format ensures a clear and orderly presentation of both the structure and the detailed contents of the repository.\n\n"

/-- Embedding of main after argument normalization: load gitignore
patterns when requested, abort with no output file when the repository
root is not a directory, and otherwise create the output file and
write the header, the tree section and the content section.  The
result is none on the fatal path and the created file (path and
contents) on success. -/
def main_run (V : Env) (args : Args) (fuel : Nat) : Option (String × String) :=
  let gitignore_patterns :=
    if args.use_gitignore then load_gitignore_patterns V args.repo_path else []
  if !V.isdir args.repo_path then none
  else
    some (args.output_file,
      "Repository Documentation\n" ++ headerParagraph ++
      "Directory/File Tree Begins -->\n\n" ++
      String.join (write_tree_chunks V args gitignore_patterns fuel args.repo_path "" true) ++
      "\n<-- Directory/File Tree Ends" ++
      "\n\nFile Content Begin -->\n" ++
      String.join (write_file_contents_in_order V args gitignore_patterns fuel args.repo_path 0).1 ++
      "\n<-- File Content Ends\n\n")

/-- Spec-side definition, following the spec's words for the gitignore
rule: a path is excluded when its root-relative form, split into path
segments, starts with the same segments as some loaded pattern.  Named
for comparison with the string-prefix test the code performs. -/
def gitignoreSegmentMatchSpec (rel : String) (patterns : List String) : Bool :=
  patterns.any (fun pattern => (splitSlash pattern).isPrefixOf (splitSlash rel))

/-- Spec-side definition, following the spec's words for the
include-directory rule: membership of a path in the include
directory's subtree (the directory itself or anything below it). -/
def inSubtree (d p : String) : Bool :=
  p == d || strStartsWith p (d ++ "/")

/-! Concrete one-run fixtures used to instantiate the theorems: small
filesystems given as explicit query functions, with the repository
root at "/r" and the output file at "/out.txt". -/

/-- Scenario filesystem of the spec: root with a.txt, b.png and
sub/c.txt; reading a.txt fails with a permission error. -/
def Vscen : Env :=
  { cwd := "/r",
    settings_extensions := [".json", ".yaml"],
    isdir := fun p => p == "/r" || p == "/r/sub",
    isfile := fun p => p == "/r/a.txt" || p == "/r/b.png" || p == "/r/sub/c.txt",
    listdir := fun p =>
      if p == "/r" then ["b.png", "a.txt", "sub"]
      else if p == "/r/sub" then ["c.txt"] else [],
    readf := fun p =>
      if p == "/r/a.txt" then Except.error "Permission denied"
      else if p == "/r/sub/c.txt" then Except.ok ["cc\n"]
      else Except.error "No such file" }

/-- Arguments for the scenario run: default-style ignore of .png, no
other filtering. -/
def Ascen : Args :=
  { repo_path := "/r", output_file := "/out.txt",
    ignore_files := [], ignore_types := [".png"], exclude_dir := [],
    ignore_settings := false, include_dir := none, use_gitignore := false }

/-- Filesystem with a single file builder.py at the root. -/
def Vgit : Env :=
  { cwd := "/r", settings_extensions := [],
    isdir := fun p => p == "/r",
    isfile := fun p => p == "/r/builder.py",
    listdir := fun p => if p == "/r" then ["builder.py"] else [],
    readf := fun _ => Except.error "No such file" }

/-- Arguments enabling only the gitignore rule. -/
def Agit : Args :=
  { repo_path := "/r", output_file := "/out.txt",
    ignore_files := [], ignore_types := [], exclude_dir := [],
    ignore_settings := false, include_dir := none, use_gitignore := true }

/-- Filesystem whose root has a.txt followed by an ignored trailing
sibling b.png. -/
def Vquirk : Env :=
  { cwd := "/r", settings_extensions := [],
    isdir := fun p => p == "/r",
    isfile := fun p => p == "/r/a.txt" || p == "/r/b.png",
    listdir := fun p => if p == "/r" then ["b.png", "a.txt"] else [],
    readf := fun _ => Except.error "No such file" }

/-- Arguments ignoring .png, so the trailing sibling is filtered. -/
def Aquirk : Args :=
  { repo_path := "/r", output_file := "/out.txt",
    ignore_files := [], ignore_types := [".png"], exclude_dir := [],
    ignore_settings := false, include_dir := none, use_gitignore := false }

/-- The single visit the tree renderer emits on the Vquirk filesystem:
a.txt is at index 0 of the two-element pre-filter list, so it is drawn
with the tee glyph although it is the last visible sibling. -/
def quirkVisit : TVisit :=
  { dir := "/r", siblings := ["a.txt", "b.png"], index := 0, total := 2,
    name := "a.txt", path := "/r/a.txt", isDir := false, pfx := "",
    line := "├── a.txt\n" }

/-- Filesystem with sibling directories sub and subx, where subx
extends the name of sub. -/
def Vincl : Env :=
  { cwd := "/r", settings_extensions := [],
    isdir := fun p => p == "/r" || p == "/r/sub" || p == "/r/subx",
    isfile := fun p => p == "/r/a.txt" || p == "/r/sub/c.txt" || p == "/r/subx/d.txt",
    listdir := fun p =>
      if p == "/r" then ["a.txt", "sub", "subx"]
      else if p == "/r/sub" then ["c.txt"]
      else if p == "/r/subx" then ["d.txt"] else [],
    readf := fun _ => Except.error "No such file" }

/-- Arguments restricting the run to the include directory /r/sub. -/
def Aincl : Args :=
  { repo_path := "/r", output_file := "/out.txt",
    ignore_files := [], ignore_types := [], exclude_dir := [],
    ignore_settings := false, include_dir := some "/r/sub", use_gitignore := false }

/-- Filesystem with a single file a.png at the root. -/
def Vpng : Env :=
  { cwd := "/r", settings_extensions := [],
    isdir := fun p => p == "/r",
    isfile := fun p => p == "/r/a.png",
    listdir := fun p => if p == "/r" then ["a.png"] else [],
    readf := fun _ => Except.error "No such file" }

/-- Arguments whose ignored-extension entry is upper-case .PNG. -/
def Apng : Args :=
  { repo_path := "/r", output_file := "/out.txt",
    ignore_files := [], ignore_types := [".PNG"], exclude_dir := [],
    ignore_settings := false, include_dir := none, use_gitignore := false }

/-- Filesystem with a directory named conf.json at the root. -/
def Vconf : Env :=
  { cwd := "/r", settings_extensions := [".json"],
    isdir := fun p => p == "/r" || p == "/r/conf.json",
    isfile := fun p => p == "/r/conf.json/x",
    listdir := fun p =>
      if p == "/r" then ["conf.json"]
      else if p == "/r/conf.json" then ["x"] else [],
    readf := fun _ => Except.error "No such file" }

/-- Arguments with the ignore-settings flag set. -/
def Aconf : Args :=
  { repo_path := "/r", output_file := "/out.txt",
    ignore_files := [], ignore_types := [], exclude_dir := [],
    ignore_settings := true, include_dir := none, use_gitignore := false }

/-- Filesystem whose root holds a.txt, which fails to read, followed
by a readable z.txt. -/
def Verr : Env :=
  { cwd := "/r", settings_extensions := [],
    isdir := fun p => p == "/r",
    isfile := fun p => p == "/r/a.txt" || p == "/r/z.txt",
    listdir := fun p => if p == "/r" then ["z.txt", "a.txt"] else [],
    readf := fun p =>
      if p == "/r/a.txt" then Except.error "Permission denied"
      else if p == "/r/z.txt" then Except.ok ["zz\n"] else Except.error "No such file" }

/-- Arguments with no filtering at all. -/
def Aerr : Args :=
  { repo_path := "/r", output_file := "/out.txt",
    ignore_files := [], ignore_types := [], exclude_dir := [],
    ignore_settings := false, include_dir := none, use_gitignore := false }

/-- Arguments whose repository root does not exist on any of the
fixture filesystems. -/
def Anoroot : Args :=
  { repo_path := "/nope", output_file := "/out.txt",
    ignore_files := [], ignore_types := [], exclude_dir := [],
    ignore_settings := false, include_dir := none, use_gitignore := false }

/-! Order facts about the code-point comparison, making sortStr a sort
with respect to a decidable linear order. -/

theorem lexLe_total (as : List Char) : ∀ bs, lexLe as bs = true ∨ lexLe bs as = true := by
  induction as with
  | nil => intro bs; left; rfl
  | cons a as ih =>
    intro bs
    cases bs with
    | nil => right; rfl
    | cons b bs =>
      rcases lt_trichotomy a b with h | h | h
      · left; simp [lexLe, h]
      · subst h
        rcases ih bs with h2 | h2
        · left; simp [lexLe, lt_irrefl, h2]
        · right; simp [lexLe, lt_irrefl, h2]
      · right; simp [lexLe, h]

theorem lexLe_trans (as : List Char) : ∀ bs cs, lexLe as bs = true → lexLe bs cs = true →
    lexLe as cs = true := by
  induction as with
  | nil => intro bs cs _ _; rfl
  | cons a as ih =>
    intro bs cs hab hbc
    cases bs with
    | nil => simp [lexLe] at hab
    | cons b bs =>
      cases cs with
      | nil => simp [lexLe] at hbc
      | cons c cs =>
        simp only [lexLe] at hab hbc ⊢
        rcases lt_trichotomy a b with h1 | h1 | h1
        · rcases lt_trichotomy b c with h2 | h2 | h2
          · simp [lt_trans h1 h2]
          · subst h2; simp [h1]
          · simp [h1, asymm h1] at hab
            rcases lt_trichotomy a c with h3 | h3 | h3
            · simp [h3]
            · subst h3; simp [lt_irrefl]
              exact absurd hbc (by simp [h2, asymm h2])
            · exact absurd hbc (by simp [h2, asymm h2])
        · subst h1
          rcases lt_trichotomy a c with h3 | h3 | h3
          · simp [h3]
          · subst h3
            simp only [lt_irrefl, if_false] at hab hbc ⊢
            exact ih _ _ hab hbc
          · simp [asymm h3, h3] at hbc
        · simp [h1, asymm h1] at hab

theorem lexLe_antisymm (as : List Char) : ∀ bs, lexLe as bs = true → lexLe bs as = true →
    as = bs := by
  induction as with
  | nil =>
    intro bs _ hba
    cases bs with
    | nil => rfl
    | cons b bs => simp [lexLe] at hba
  | cons a as ih =>
    intro bs hab hba
    cases bs with
    | nil => simp [lexLe] at hab
    | cons b bs =>
      rcases lt_trichotomy a b with h | h | h
      · simp [lexLe, h, asymm h] at hba
      · subst h
        simp only [lexLe, lt_irrefl, if_false] at hab hba
        rw [ih bs hab hba]
      · simp [lexLe, h, asymm h] at hab

instance : IsTotal String strLeP := ⟨fun a b => lexLe_total a.data b.data⟩

instance : IsTrans String strLeP :=
  ⟨fun a b c hab hbc => lexLe_trans a.data b.data c.data hab hbc⟩

instance : IsAntisymm String strLeP :=
  ⟨fun a b hab hba => String.ext (lexLe_antisymm a.data b.data hab hba)⟩

theorem sortStr_perm (l : List String) : (sortStr l).Perm l :=
  List.perm_insertionSort strLeP l

theorem sortStr_sorted (l : List String) : List.Sorted strLeP (sortStr l) :=
  List.sorted_insertionSort strLeP l

/-- Filtering commutes with the sort: sorting then filtering is the
same list as filtering then sorting (the sort is with respect to a
linear order, so the sorted filtered list is unique). -/
theorem filter_sortStr (p : String → Bool) (l : List String) :
    (sortStr l).filter p = sortStr (l.filter p) :=
  List.eq_of_perm_of_sorted
    (((sortStr_perm l).filter p).trans (sortStr_perm (l.filter p)).symm)
    (List.Pairwise.filter p (sortStr_sorted l))
    (sortStr_sorted (l.filter p))

/-! Generic list computation lemmas used to relate the two traversals. -/

theorem filterMap_flatMap_eq (l : List (Nat × String)) (g : Nat × String → List TVisit)
    (f : TVisit → Option String) :
    (l.flatMap g).filterMap f = l.flatMap fun a => (g a).filterMap f := by
  induction l with
  | nil => rfl
  | cons x xs ih => simp [List.flatMap_cons, List.filterMap_append, ih]

theorem enumFrom_flatMap_snd (G : String → List String) (l : List String) :
    ∀ n, (List.enumFrom n l).flatMap (fun x => G x.2) = l.flatMap G := by
  induction l with
  | nil => intro n; rfl
  | cons x xs ih => intro n; simp [List.enumFrom, List.flatMap_cons, ih]

theorem enum_flatMap_snd (G : String → List String) (l : List String) :
    l.enum.flatMap (fun x => G x.2) = l.flatMap G := by
  rw [List.enum_eq_enumFrom]; exact enumFrom_flatMap_snd G l 0

theorem flatMap_guard_filter (l : List String) (p : String → Bool) (K : String → List String) :
    (l.flatMap fun a => if p a then [] else K a) =
      (l.filter fun a => !p a).flatMap K := by
  induction l with
  | nil => rfl
  | cons x xs ih =>
    by_cases h : p x <;> simp [List.flatMap_cons, List.filter_cons, h, ih]

theorem flatMap_congr_mem (l : List String) (f g : String → List String)
    (h : ∀ a ∈ l, f a = g a) : l.flatMap f = l.flatMap g := by
  induction l with
  | nil => rfl
  | cons x xs ih =>
    simp only [List.flatMap_cons, h x (List.mem_cons_self x xs)]
    rw [ih fun a ha => h a (List.mem_cons_of_mem x ha)]

/-- Projecting the visits of one tree-loop iteration to listed file
paths: nothing for a skipped item, the recursion's projection for a
directory, the item's path for anything else. -/
theorem write_tree_child_filterMap (V : Env) (args : Args) (pats : List String)
    (rec : String → String → List TVisit) (dir_path pfx : String)
    (items : List String) (iv : Nat × String) :
    (write_tree_child V args pats rec dir_path pfx items iv).filterMap treeFileProj =
      if should_ignore V (pathJoin dir_path iv.2) args args.output_file pats then []
      else if V.isdir (pathJoin dir_path iv.2) then
        (rec (pathJoin dir_path iv.2)
          (pfx ++ if iv.1 == items.length - 1 then "    " else "│   ")).filterMap treeFileProj
      else [pathJoin dir_path iv.2] := by
  by_cases hig : should_ignore V (pathJoin dir_path iv.2) args args.output_file pats
  · simp [write_tree_child, hig]
  · by_cases hd : V.isdir (pathJoin dir_path iv.2)
    · simp [write_tree_child, hig, hd, treeFileProj, List.filterMap_cons]
    · simp [write_tree_child, hig, hd, treeFileProj, List.filterMap_cons]

/-- Claim C1: within one run the filter decides identically in both
passes, so the files listed in the tree section are exactly the files
dumped in the content section, in the same order.  The hypothesis
states that every name a directory listing returns denotes a file or a
directory. -/
theorem tree_files_eq_dump_files (V : Env) (args : Args) (pats : List String)
    (hV : ∀ d n, n ∈ V.listdir d →
      (V.isdir (pathJoin d n) || V.isfile (pathJoin d n)) = true) :
    ∀ (fuel : Nat) (dir_path pfx : String) (depth : Nat),
      treeListedFiles V args pats fuel dir_path pfx =
        (write_file_contents_in_order V args pats fuel dir_path depth).2 := by
  intro fuel
  induction fuel with
  | zero => intro dir_path pfx depth; rfl
  | succ fuel ih =>
    intro dir_path pfx depth
    simp only [treeListedFiles, write_tree_visits]
    rw [filterMap_flatMap_eq]
    have hpt : (fun a : Nat × String =>
        (write_tree_child V args pats (write_tree_visits V args pats fuel)
          dir_path pfx (sortStr (V.listdir dir_path)) a).filterMap treeFileProj) =
        (fun a : Nat × String =>
          (fun item : String =>
            if should_ignore V (pathJoin dir_path item) args args.output_file pats then []
            else if V.isdir (pathJoin dir_path item) then
              (write_file_contents_in_order V args pats fuel (pathJoin dir_path item) (depth + 1)).2
            else [pathJoin dir_path item]) a.2) := by
      funext a
      rw [write_tree_child_filterMap]
      by_cases hig : should_ignore V (pathJoin dir_path a.2) args args.output_file pats
      · simp [hig]
      · by_cases hd : V.isdir (pathJoin dir_path a.2)
        · simp only [hig, hd, if_true, if_false, Bool.false_eq_true]
          have := ih (pathJoin dir_path a.2)
            (pfx ++ if a.1 == (sortStr (V.listdir dir_path)).length - 1 then "    " else "│   ")
            (depth + 1)
          simpa [treeListedFiles] using this
        · simp [hig, hd]
    rw [hpt]
    rw [enum_flatMap_snd
      (fun item : String =>
        if should_ignore V (pathJoin dir_path item) args args.output_file pats then []
        else if V.isdir (pathJoin dir_path item) then
          (write_file_contents_in_order V args pats fuel (pathJoin dir_path item) (depth + 1)).2
        else [pathJoin dir_path item])
      (sortStr (V.listdir dir_path))]
    rw [flatMap_guard_filter (sortStr (V.listdir dir_path))
      (fun item => should_ignore V (pathJoin dir_path item) args args.output_file pats)
      (fun item =>
        if V.isdir (pathJoin dir_path item) then
          (write_file_contents_in_order V args pats fuel (pathJoin dir_path item) (depth + 1)).2
        else [pathJoin dir_path item])]
    rw [filter_sortStr]
    simp only [write_file_contents_in_order, dump_items]
    rw [List.flatMap_map]
    apply flatMap_congr_mem
    intro item hmem
    have hmem2 : item ∈ V.listdir dir_path := by
      have := (sortStr_perm ((V.listdir dir_path).filter (fun item =>
        !should_ignore V (pathJoin dir_path item) args args.output_file pats))).mem_iff.mp hmem
      exact (List.mem_filter.mp this).1
    by_cases hd : V.isdir (pathJoin dir_path item)
    · simp [write_one_item, hd]
    · have hf : V.isfile (pathJoin dir_path item) = true := by
        have := hV dir_path item hmem2
        simpa [hd] using this
      simp [write_one_item, hd, hf]

/-- Claim C3: every line the tree renderer emits belongs to a
non-ignored item; its branch glyph is the corner exactly when the
item's index in the full pre-filter sorted sibling list is the last
index of that list, and the tee otherwise.  Ignored items occupy an
index of the sibling list (the visit records the full list and the
item's position in it) but never emit a line. -/
theorem tree_glyph_from_prefilter_index (V : Env) (args : Args) (pats : List String) :
    ∀ (fuel : Nat) (dir_path pfx : String) (v : TVisit),
      v ∈ write_tree_visits V args pats fuel dir_path pfx →
      should_ignore V v.path args args.output_file pats = false ∧
      v.siblings = sortStr (V.listdir v.dir) ∧
      v.total = v.siblings.length ∧
      v.siblings[v.index]? = some v.name ∧
      v.line = v.pfx ++ (if v.index = v.total - 1 then "└── " else "├── ") ++
        basename v.name ++ "\n" := by
  intro fuel
  induction fuel with
  | zero => intro _ _ v hv; simp [write_tree_visits] at hv
  | succ fuel ih =>
    intro dir_path pfx v hv
    simp only [write_tree_visits] at hv
    rw [List.mem_flatMap] at hv
    obtain ⟨iv, hiv, hv⟩ := hv
    obtain ⟨i, item⟩ := iv
    by_cases hig : should_ignore V (pathJoin dir_path item) args args.output_file pats
    · simp [write_tree_child, hig] at hv
    · simp only [write_tree_child, hig, if_false, Bool.false_eq_true] at hv
      rw [List.mem_cons] at hv
      rcases hv with rfl | hv
      · obtain ⟨hlt, hget⟩ := List.mem_enum hiv
        refine ⟨by simpa using hig, rfl, rfl, ?_, ?_⟩
        · simpa [List.getElem?_eq_getElem hlt] using hget.symm
        · by_cases hlast : i = (sortStr (V.listdir dir_path)).length - 1 <;>
            simp [hlast]
      · by_cases hd : V.isdir (pathJoin dir_path item)
        · exact ih _ _ v (by simpa [hd] using hv)
        · simp [hd] at hv

/-- When should_ignore returns include while an include directory is
configured (and non-empty), the path's absolute form starts with the
include directory's absolute form: the third rule did not fire. -/
theorem should_ignore_false_include_dir (V : Env) (item : String) (args : Args)
    (out : String) (pats : List String) (d : String)
    (hd : args.include_dir = some d) (hne : d ≠ "")
    (h : should_ignore V item args out pats = false) :
    strStartsWith (abspath V.cwd item) (abspath V.cwd d) = true := by
  simp only [should_ignore, hd, Option.any_some] at h
  split at h
  · simp at h
  · split at h
    · simp at h
    · split at h
      · simp at h
      · rename_i h3
        by_cases hs : strStartsWith (abspath V.cwd item) (abspath V.cwd d) = true
        · exact hs
        · exact absurd (by simp [bne_iff_ne, hne, Bool.eq_false_iff.mpr hs]) h3

/-- Every visit the tree renderer emits is of a non-ignored path. -/
theorem tree_visit_not_ignored (V : Env) (args : Args) (pats : List String) :
    ∀ (fuel : Nat) (dir_path pfx : String) (v : TVisit),
      v ∈ write_tree_visits V args pats fuel dir_path pfx →
      should_ignore V v.path args args.output_file pats = false := by
  intro fuel
  induction fuel with
  | zero => intro _ _ v hv; simp [write_tree_visits] at hv
  | succ fuel ih =>
    intro dir_path pfx v hv
    simp only [write_tree_visits] at hv
    rw [List.mem_flatMap] at hv
    obtain ⟨iv, _, hv⟩ := hv
    by_cases hig : should_ignore V (pathJoin dir_path iv.2) args args.output_file pats
    · simp [write_tree_child, hig] at hv
    · simp only [write_tree_child, hig, if_false, Bool.false_eq_true] at hv
      rw [List.mem_cons] at hv
      rcases hv with rfl | hv
      · simpa using hig
      · by_cases hd : V.isdir (pathJoin dir_path iv.2)
        · exact ih _ _ v (by simpa [hd] using hv)
        · simp [hd] at hv

/-- Every file path the content dumper emits is of a non-ignored
path. -/
theorem dump_file_not_ignored (V : Env) (args : Args) (pats : List String) :
    ∀ (fuel : Nat) (dir_path : String) (depth : Nat) (p : String),
      p ∈ (write_file_contents_in_order V args pats fuel dir_path depth).2 →
      should_ignore V p args args.output_file pats = false := by
  intro fuel
  induction fuel with
  | zero => intro _ _ p hp; simp [write_file_contents_in_order] at hp
  | succ fuel ih =>
    intro dir_path depth p hp
    simp only [write_file_contents_in_order] at hp
    rw [List.flatMap_map, List.mem_flatMap] at hp
    obtain ⟨item, hitem, hp⟩ := hp
    have hni : should_ignore V (pathJoin dir_path item) args args.output_file pats = false := by
      have := (sortStr_perm _).mem_iff.mp hitem
      have := (List.mem_filter.mp this).2
      simpa using this
    by_cases hd : V.isdir (pathJoin dir_path item)
    · exact ih _ _ p (by simpa [write_one_item, hd] using hp)
    · by_cases hf : V.isfile (pathJoin dir_path item)
      · have : p = pathJoin dir_path item := by
          simpa [write_one_item, hd, hf] using hp
        rwa [this]
      · simp [write_one_item, hd, hf] at hp

/-- Claim C5 (amended): with an include directory configured, every
path visited by the tree renderer and every file dumped by the content
dumper has the include directory's absolute form as a string prefix of
its own absolute form.  (The restriction is a string-prefix test, not
subtree membership; see the counterexample.) -/
theorem include_dir_restriction (V : Env) (args : Args) (pats : List String)
    (d : String) (hd : args.include_dir = some d) (hne : d ≠ "") :
    (∀ (fuel : Nat) (dir_path pfx : String) (v : TVisit),
      v ∈ write_tree_visits V args pats fuel dir_path pfx →
      strStartsWith (abspath V.cwd v.path) (abspath V.cwd d) = true) ∧
    (∀ (fuel : Nat) (dir_path : String) (depth : Nat) (p : String),
      p ∈ (write_file_contents_in_order V args pats fuel dir_path depth).2 →
      strStartsWith (abspath V.cwd p) (abspath V.cwd d) = true) := by
  constructor
  · intro fuel dir_path pfx v hv
    exact should_ignore_false_include_dir V v.path args args.output_file pats d hd hne
      (tree_visit_not_ignored V args pats fuel dir_path pfx v hv)
  · intro fuel dir_path depth p hp
    exact should_ignore_false_include_dir V p args args.output_file pats d hd hne
      (dump_file_not_ignored V args pats fuel dir_path depth p hp)

/-- Claim C5 counterexample: with include directory /r/sub, the file
/r/subx/d.txt is dumped although it lies outside the include
directory's subtree, because the rule is a string-prefix test on
absolute paths and /r/subx extends the name /r/sub. -/
theorem include_dir_counterexample :
    "/r/subx/d.txt" ∈ (write_file_contents_in_order Vincl Aincl [] 3 "/r" 0).2 ∧
    inSubtree "/r/sub" "/r/subx/d.txt" = false := by decide

/-- Claim C2 (amended): with the gitignore flag set and every other
rule disabled, should_ignore ignores a path exactly when the path's
root-relative form starts, as a string, with one of the
slash-separated components of some loaded pattern. -/
theorem gitignore_is_string_prefix_on_components (V : Env) (item : String) (args : Args)
    (out : String) (pats : List String)
    (h1 : args.exclude_dir = []) (h2 : args.ignore_files = []) (h3 : args.ignore_types = [])
    (h4 : args.ignore_settings = false) (h5 : args.include_dir = none)
    (h6 : args.use_gitignore = true)
    (h7 : (abspath V.cwd item == abspath V.cwd out) = false) :
    should_ignore V item args out pats =
      pats.any (fun pattern => (splitSlash pattern).any
        (fun c => strStartsWith (relpath V.cwd item args.repo_path) c)) := by
  simp [should_ignore, h1, h2, h3, h4, h5, h6, h7]

/-- Claim C2 counterexample: the pattern build causes builder.py to be
ignored, although builder.py does not start with the segment build in
the path-segment sense the claim states. -/
theorem gitignore_counterexample :
    should_ignore Vgit "/r/builder.py" Agit "/out.txt" ["build"] = true ∧
    gitignoreSegmentMatchSpec (relpath Vgit.cwd "/r/builder.py" Agit.repo_path) ["build"] = false := by
  decide

/-- Claim C4: should_ignore evaluates the six rules in their source
order and returns ignore at the first rule that matches, include when
none does. -/
theorem should_ignore_rule_order (V : Env) (item : String) (args : Args)
    (out : String) (pats : List String) :
    should_ignore V item args out pats =
      evalFirstMatch (ignore_rules V item args out pats) := by
  simp only [should_ignore, ignore_rules, evalFirstMatch]
  generalize (abspath V.cwd item == abspath V.cwd out) = b1
  generalize (V.isdir item && (!args.exclude_dir.isEmpty && args.exclude_dir.contains (basename item))) = b2
  generalize (args.include_dir.any fun d =>
    d != "" && !strStartsWith (abspath V.cwd item) (abspath V.cwd d)) = b3
  generalize (V.isfile item && (args.ignore_files.contains (basename item) ||
    args.ignore_types.contains (lowerStr (splitextExt (basename item))))) = b4
  generalize (args.ignore_settings && V.settings_extensions.contains
    (lowerStr (splitextExt (basename item)))) = b5
  generalize args.use_gitignore = b6
  generalize (pats.any fun pattern => (splitSlash pattern).any fun c =>
    strStartsWith (relpath V.cwd item args.repo_path) c) = b7
  revert b1 b2 b3 b4 b5 b6 b7
  decide

/-- Claim C6: a file whose read fails has the error's description
written in place of its content, with the same indentation the content
lines would have received, between its begin and end markers; the
items before and after it in the directory are processed unchanged, so
the dump continues. -/
theorem file_read_error_inline (V : Env) (args : Args) (pats : List String)
    (fuel depth : Nat) (dir_path item e : String) (pre post : List String)
    (hitems : dump_items V args pats dir_path = pre ++ item :: post)
    (hdir : V.isdir (pathJoin dir_path item) = false)
    (hfile : V.isfile (pathJoin dir_path item) = true)
    (herr : V.readf (pathJoin dir_path item) = Except.error e) :
    write_file_content V (pathJoin dir_path item) depth =
      [indentStr depth ++ "Error reading file: " ++ e ++ "\n"] ∧
    (write_file_contents_in_order V args pats (fuel + 1) dir_path depth).1 =
      (pre.map (write_one_item V args (write_file_contents_in_order V args pats fuel)
        dir_path depth)).flatMap Prod.fst ++
      ([indentStr depth ++ "[File Begins] " ++
          relpath V.cwd (pathJoin dir_path item) args.repo_path ++ "\n",
        indentStr depth ++ "Error reading file: " ++ e ++ "\n",
        "\n" ++ indentStr depth ++ "[File Ends] " ++
          relpath V.cwd (pathJoin dir_path item) args.repo_path ++ "\n\n"] ++
      (post.map (write_one_item V args (write_file_contents_in_order V args pats fuel)
        dir_path depth)).flatMap Prod.fst) := by
  have hwfc : write_file_content V (pathJoin dir_path item) depth =
      [indentStr depth ++ "Error reading file: " ++ e ++ "\n"] := by
    simp [write_file_content, herr]
  refine ⟨hwfc, ?_⟩
  simp only [write_file_contents_in_order, hitems]
  rw [List.map_append, List.map_cons, List.flatMap_append, List.flatMap_cons]
  simp [write_one_item, hdir, hfile, hwfc]

/-- Claim C7: when the repository root is not a directory the run
produces no output file; when it is a directory the run always
produces one, whatever the per-file read results are. -/
theorem main_root_check (V : Env) (args : Args) (fuel : Nat) :
    (V.isdir args.repo_path = false → main_run V args fuel = none) ∧
    (V.isdir args.repo_path = true → (main_run V args fuel).isSome = true) := by
  constructor <;> intro h <;> simp [main_run, h]

/-- Boolean equality of strings is symmetric. -/
theorem strBeqComm (a b : String) : (a == b) = (b == a) := by
  by_cases h : a = b
  · simp [h]
  · have h2 : ¬ b = a := fun hh => h hh.symm
    simp [h, h2]

/-- Claim C8 (amended): the extension test lowercases the file's
extension and then looks it up verbatim in the ignored-extension set,
so a file with no extension matches no non-empty entry, and for
lowercase entries the test coincides with a fully case-insensitive
comparison; an entry with upper-case letters, however, never matches
(see the counterexample). -/
theorem ext_comparison_lowercases_file_extension (name : String) (types : List String) :
    (splitextExt name = "" → ¬ "" ∈ types →
      types.contains (lowerStr (splitextExt name)) = false) ∧
    ((∀ t ∈ types, lowerStr t = t) →
      types.contains (lowerStr (splitextExt name)) =
        types.any (fun t => lowerStr t == lowerStr (splitextExt name))) := by
  constructor
  · intro he hmem
    rw [he]
    show types.contains "" = false
    simpa using hmem
  · intro hlow
    induction types with
    | nil => rfl
    | cons t ts ih =>
      have ht : lowerStr t = t := hlow t (List.mem_cons_self t ts)
      have hts : ∀ u ∈ ts, lowerStr u = u :=
        fun u hu => hlow u (List.mem_cons_of_mem t hu)
      rw [List.contains_cons, List.any_cons, ih hts, ht,
        strBeqComm (lowerStr (splitextExt name)) t]

/-- Claim C8 counterexample: with the ignored-extension entry .PNG,
the file a.png is not ignored although its extension equals the entry
up to case, so the comparison is not case-insensitive in the entries. -/
theorem ext_case_counterexample :
    Apng.ignore_types = [".PNG"] ∧
    (lowerStr ".PNG" == lowerStr (splitextExt (basename "/r/a.png"))) = true ∧
    should_ignore Vpng "/r/a.png" Apng "/out.txt" [] = false := by decide

/-- Claim C9: should_ignore is a pure function of the path, the
configuration and the patterns: two evaluations on the same inputs
return the same boolean, and evaluating it over a traversal in any
order yields the same multiset of decisions. -/
theorem should_ignore_pure (V : Env) (args : Args) (out : String) (pats : List String) :
    (∀ (item : String) (b1 b2 : Bool), should_ignore V item args out pats = b1 →
        should_ignore V item args out pats = b2 → b1 = b2) ∧
    (∀ order1 order2 : List String, order1.Perm order2 →
      (order1.map fun item => (item, should_ignore V item args out pats)).Perm
        (order2.map fun item => (item, should_ignore V item args out pats))) :=
  ⟨fun _ _ _ h1 h2 => h1.symm.trans h2, fun _ _ hp => hp.map _⟩

/-- Claim C10: with the ignore-settings flag set, any path whose
extension is in the settings-extension set is ignored, with no
restriction to files: the rule applies to directories as well. -/
theorem settings_rule_ignores_directories_too (V : Env) (item : String) (args : Args)
    (out : String) (pats : List String)
    (hset : args.ignore_settings = true)
    (hext : V.settings_extensions.contains (lowerStr (splitextExt (basename item))) = true) :
    should_ignore V item args out pats = true := by
  have hm : lowerStr (splitextExt (basename item)) ∈ V.settings_extensions := by
    simpa using hext
  simp [should_ignore, hset, hm]

/-- Witness for claim C1 on the scenario filesystem: the tree section
and the content section list the same files. -/
theorem tree_files_eq_dump_files_witness :
    treeListedFiles Vscen Ascen [] 4 "/r" "" =
      (write_file_contents_in_order Vscen Ascen [] 4 "/r" 0).2 := by
  apply tree_files_eq_dump_files
  intro d n h
  simp only [Vscen] at h
  split at h
  · rename_i hc
    simp only [beq_iff_eq] at hc
    subst hc
    simp only [List.mem_cons, List.not_mem_nil, or_false] at h
    rcases h with rfl | rfl | rfl <;> decide
  · split at h
    · rename_i hc
      simp only [beq_iff_eq] at hc
      subst hc
      simp only [List.mem_cons, List.not_mem_nil, or_false] at h
      rcases h with rfl
      decide
    · simp at h

/-- Witness for claim C2 (amended) on the builder.py filesystem. -/
theorem gitignore_is_string_prefix_witness :
    should_ignore Vgit "/r/builder.py" Agit "/out.txt" ["build"] =
      (["build"] : List String).any (fun pattern => (splitSlash pattern).any
        (fun c => strStartsWith (relpath Vgit.cwd "/r/builder.py" Agit.repo_path) c)) :=
  gitignore_is_string_prefix_on_components Vgit "/r/builder.py" Agit "/out.txt" ["build"]
    rfl rfl rfl rfl rfl rfl (by decide)

/-- Witness for claim C3 on the trailing-ignored-sibling filesystem:
the only emitted visit is a.txt, and because the ignored b.png still
occupies the last index of the sibling list, a.txt is drawn with the
tee glyph although it is the last visible sibling. -/
theorem tree_glyph_witness :
    write_tree_visits Vquirk Aquirk [] 2 "/r" "" = [quirkVisit] ∧
    quirkVisit.line = quirkVisit.pfx ++
      (if quirkVisit.index = quirkVisit.total - 1 then "└── " else "├── ") ++
      basename quirkVisit.name ++ "\n" ∧
    quirkVisit.line = "├── a.txt\n" :=
  ⟨by decide,
   (tree_glyph_from_prefilter_index Vquirk Aquirk [] 2 "/r" "" quirkVisit (by decide)).2.2.2.2,
   by decide⟩

/-- Witness for claim C5 (amended): a dumped file of the include-dir
run has the include directory's absolute form as prefix. -/
theorem include_dir_prefix_witness :
    strStartsWith (abspath Vincl.cwd "/r/sub/c.txt") (abspath Vincl.cwd "/r/sub") = true :=
  (include_dir_restriction Vincl Aincl [] "/r/sub" rfl (by decide)).2
    3 "/r" 0 "/r/sub/c.txt" (by decide)

/-- Witness for claim C6: on the fixture whose a.txt fails with a
permission error, the error text replaces the content. -/
theorem file_read_error_witness :
    write_file_content Verr (pathJoin "/r" "a.txt") 0 =
      [indentStr 0 ++ "Error reading file: " ++ "Permission denied" ++ "\n"] :=
  (file_read_error_inline Verr Aerr [] 1 0 "/r" "a.txt" "Permission denied" [] ["z.txt"]
    (by decide) (by decide) (by decide) rfl).1

/-- Witness for claim C7: a run on a missing root produces no output
file, and a run on a valid root with a failing file read still
produces one. -/
theorem main_root_check_witness :
    main_run Verr Anoroot 2 = none ∧ (main_run Verr Aerr 2).isSome = true :=
  ⟨(main_root_check Verr Anoroot 2).1 (by decide),
   (main_root_check Verr Aerr 2).2 (by decide)⟩

/-- Witness for claim C8 (amended): for a lowercase entry the test is
case-insensitive in the file's extension, and an extensionless file
matches nothing. -/
theorem ext_comparison_witness :
    ([".png"] : List String).contains (lowerStr (splitextExt "x.PnG")) =
      [".png"].any (fun t => lowerStr t == lowerStr (splitextExt "x.PnG")) ∧
    ([".png"] : List String).contains (lowerStr (splitextExt "Makefile")) = false :=
  ⟨(ext_comparison_lowercases_file_extension "x.PnG" [".png"]).2 (by decide),
   (ext_comparison_lowercases_file_extension "Makefile" [".png"]).1 (by decide) (by decide)⟩

/-- Witness for claim C9: two evaluations of should_ignore on b.png
agree, and a permuted traversal yields permuted decisions. -/
theorem should_ignore_pure_witness :
    (true = true) ∧
    ((["/r/a.txt", "/r/b.png"].map fun item =>
        (item, should_ignore Vscen item Ascen "/out.txt" [])).Perm
      (["/r/b.png", "/r/a.txt"].map fun item =>
        (item, should_ignore Vscen item Ascen "/out.txt" []))) :=
  ⟨(should_ignore_pure Vscen Ascen "/out.txt" []).1 "/r/b.png" true true
      (by decide) (by decide),
   (should_ignore_pure Vscen Ascen "/out.txt" []).2 _ _ (List.Perm.swap _ _ _)⟩

/-- Witness for claim C10: the directory conf.json is ignored by the
settings rule although it is not a file. -/
theorem settings_rule_witness :
    should_ignore Vconf "/r/conf.json" Aconf "/out.txt" [] = true ∧
    Vconf.isdir "/r/conf.json" = true ∧ Vconf.isfile "/r/conf.json" = false :=
  ⟨settings_rule_ignores_directories_too Vconf "/r/conf.json" Aconf "/out.txt" []
      rfl (by decide),
   by decide, by decide⟩
